import Mathlib

/-!
Verification model for the jadis repository (a javap-style Java class-file
disassembler project).

The repository's only source file, `src/main.rs`, is:

    fn main() {
        let args: Vec<String> = env::args().collect();
        println!("{:?}", args);
    }

The first part of this file is a shallow embedding of that program: the
argument list (program name first, then arguments in invocation order),
Rust's `Debug` formatting of `Vec<String>`, the panic behaviour of
`env::args` on non-Unicode arguments, and an explicit ambient world
(filesystem, environment variables, clock, entropy, effect trace) so that
noninterference-style properties can be stated.

The second part models, from the specification's words, the disassembler
core that the specification describes and that is absent from the source:
the Byte Reader, the Constant Pool Loader, the Classfile Structure Loader,
the Attribute Decoder, the Bytecode Disassembler and the Renderer.
-/

/-! ## Hexadecimal rendering (used by the escape model and the renderer) -/

def hexDigitChars : List Char := "0123456789abcdef".data

def hexDigit (n : Nat) : Char :=
  (hexDigitChars.get? n).getD '0'

def natToHexAux : Nat → Nat → List Char
  | 0, _ => []
  | fuel + 1, n =>
    if n < 16 then [hexDigit n]
    else natToHexAux fuel (n / 16) ++ [hexDigit (n % 16)]

def natToHex (n : Nat) : List Char := natToHexAux (n + 1) n

/-! ## Rust `Debug` formatting of `Vec<String>`

`println!("{:?}", args)` formats the vector as `["a", "b"]` where every
string is printed between double quotes with `char::escape_debug`-style
escaping: `"`, `\`, newline, carriage return, tab and NUL get two-character
escapes, other control characters get a `\u{...}` escape, and the remaining
characters are printed as themselves. -/

def escapeDebugChar (c : Char) : List Char :=
  if c = '"' then ['\\', '"']
  else if c = '\\' then ['\\', '\\']
  else if c = '\n' then ['\\', 'n']
  else if c = '\r' then ['\\', 'r']
  else if c = '\t' then ['\\', 't']
  else if c = '\x00' then ['\\', '0']
  else if c.toNat < 32 ∨ c.toNat = 127 then
    '\\' :: 'u' :: '\x7b' :: (natToHex c.toNat ++ ['\x7d'])
  else [c]

def rustDebugString (s : String) : List Char :=
  '"' :: ((s.data.map escapeDebugChar).flatten ++ ['"'])

def sepCommaSpace : List (List Char) → List Char
  | [] => []
  | [x] => x
  | x :: y :: rest => x ++ ',' :: ' ' :: sepCommaSpace (y :: rest)

def rustDebugVec (args : List String) : List Char :=
  '[' :: (sepCommaSpace (args.map rustDebugString) ++ [']'])

/-- The single line printed by the program for argument list `args`
(the trailing newline emitted by `println!` is kept separate: the model's
standard output is a list of lines). -/
def debugLine (args : List String) : String := String.mk (rustDebugVec args)

/-! ## UTF-8 validity (the `env::args` panic condition)

`std::env::args` panics when an operating-system argument is not valid
Unicode. On the byte level this is UTF-8 validity, modelled here by a
standard UTF-8 decoder: two-byte forms `C2..DF`, three-byte forms with the
`E0`/`ED` overlong and surrogate restrictions, four-byte forms with the
`F0`/`F4` range restrictions. -/

def utf8Cont (b : Nat) : Bool := 128 ≤ b && b < 192

def utf8DecodeAux : Nat → List Nat → Option (List Char)
  | _, [] => some []
  | 0, _ :: _ => none
  | fuel + 1, b :: rest =>
    if b ≤ 0x7F then
      (utf8DecodeAux fuel rest).map (fun cs => Char.ofNat b :: cs)
    else if 0xC2 ≤ b ∧ b ≤ 0xDF then
      match rest with
      | c1 :: rest1 =>
        if utf8Cont c1 then
          (utf8DecodeAux fuel rest1).map
            (fun cs => Char.ofNat ((b - 0xC0) * 64 + (c1 - 0x80)) :: cs)
        else none
      | [] => none
    else if 0xE0 ≤ b ∧ b ≤ 0xEF then
      match rest with
      | c1 :: c2 :: rest2 =>
        let lowOk :=
          if b = 0xE0 then 0xA0 ≤ c1 && c1 ≤ 0xBF
          else if b = 0xED then 0x80 ≤ c1 && c1 ≤ 0x9F
          else utf8Cont c1
        if lowOk && utf8Cont c2 then
          (utf8DecodeAux fuel rest2).map
            (fun cs =>
              Char.ofNat ((b - 0xE0) * 4096 + (c1 - 0x80) * 64 + (c2 - 0x80)) :: cs)
        else none
      | _ => none
    else if 0xF0 ≤ b ∧ b ≤ 0xF4 then
      match rest with
      | c1 :: c2 :: c3 :: rest3 =>
        let lowOk :=
          if b = 0xF0 then 0x90 ≤ c1 && c1 ≤ 0xBF
          else if b = 0xF4 then 0x80 ≤ c1 && c1 ≤ 0x8F
          else utf8Cont c1
        if lowOk && utf8Cont c2 && utf8Cont c3 then
          (utf8DecodeAux fuel rest3).map
            (fun cs =>
              Char.ofNat
                ((b - 0xF0) * 262144 + (c1 - 0x80) * 4096 +
                  (c2 - 0x80) * 64 + (c3 - 0x80)) :: cs)
        else none
      | _ => none
    else none

/-- UTF-8 decoding of one operating-system argument; `none` means the
argument is not valid Unicode (the case in which `env::args` panics). -/
def decodeUtf8 (bs : List Nat) : Option (List Char) := utf8DecodeAux bs.length bs

/-- `env::args().collect()`: decode every operating-system argument;
`none` models the panic raised on the first non-Unicode argument. -/
def collectArgsOs : List (List Nat) → Option (List String)
  | [] => some []
  | a :: rest =>
    match decodeUtf8 a, collectArgsOs rest with
    | some cs, some tail => some (String.mk cs :: tail)
    | _, _ => none

/-! ## The program and its ambient world

The world carries every ambient input a process could observe (filesystem,
environment variables, clock, entropy) together with the observable
outputs (standard-output lines and a trace of performed effects), so that
"the program never opens a file / never parses a file / ignores the
environment" are statable properties rather than conventions. -/

inductive Effect where
  | printLine (line : String)
  | openFile (path : String)
  | parseFile (path : String) (ok : Bool)
  | readEnvVar (name : String)
  | readClock
  | readEntropy
deriving Repr, DecidableEq

structure Sys where
  fs : List (String × List Nat)
  envVars : List (String × String)
  clock : Nat
  entropy : List Nat
  stdoutLines : List String
  trace : List Effect
deriving Repr, DecidableEq

def emptySys : Sys := ⟨[], [], 0, [], [], []⟩

/-- The body of `main` after argument collection: print the `Debug`
formatting of the argument vector and exit with status 0. `args` is the
full argument list, program name first, in invocation order. -/
def runMainArgs (args : List String) (s : Sys) : Sys × Nat :=
  ({ s with
      stdoutLines := s.stdoutLines ++ [debugLine args],
      trace := s.trace ++ [Effect.printLine (debugLine args)] }, 0)

inductive RunOutcome where
  | completed (s : Sys) (exitCode : Nat)
  | panicked (s : Sys)
deriving Repr, DecidableEq

/-- The whole program, starting from raw operating-system arguments:
`env::args().collect()` (which panics on non-Unicode input) followed by
`println!("{:?}", args)`. -/
def runMainOs (osArgs : List (List Nat)) (s : Sys) : RunOutcome :=
  match collectArgsOs osArgs with
  | some args =>
    let (s1, code) := runMainArgs args s
    RunOutcome.completed s1 code
  | none => RunOutcome.panicked s

/-! ## Error taxonomy

Modelled from the spec: the error taxonomy of section 7 of the
specification (`UnexpectedEndOfInput`, `NotAClassFile`, ...). The spec says
every error carries context (byte offset, section name); the model keeps
the payloads needed by the claims under verification (`UnknownOpcode`
carries the byte value and offset, `InvalidConstantTag` the tag byte) and
leaves the remaining constructors bare. -/

inductive Err where
  | unexpectedEndOfInput
  | notAClassFile
  | unsupportedVersion
  | invalidConstantTag (tag : Nat)
  | truncatedConstantPool
  | invalidPoolIndex
  | constantTypeMismatch
  | truncatedClassFile
  | attributeLengthMismatch
  | unknownOpcode (b : Nat) (offset : Nat)
  | malformedSwitchTable
deriving Repr, DecidableEq

/-! ## Modified UTF-8

Modelled from the spec: the "modified UTF-8" string encoding used inside
the constant pool (glossary: differs from standard UTF-8 in its handling
of the null character and supplementary-plane characters). The decoder is
total: NUL is encoded as the two-byte form `C0 80`, supplementary-plane
characters as a six-byte surrogate pair, and malformed sequences decode to
U+FFFD so that decoding a length-delimited byte run never fails for a
reason other than running out of input. -/

def replacementChar : Char := Char.ofNat 0xFFFD

def mutf8Aux : Nat → List Nat → List Char
  | _, [] => []
  | 0, _ :: _ => []
  | fuel + 1, b :: rest =>
    if 1 ≤ b ∧ b ≤ 0x7F then Char.ofNat b :: mutf8Aux fuel rest
    else if 0xC0 ≤ b ∧ b ≤ 0xDF then
      match rest with
      | c1 :: rest1 =>
        if utf8Cont c1 then
          Char.ofNat ((b - 0xC0) * 64 + (c1 - 0x80)) :: mutf8Aux fuel rest1
        else replacementChar :: mutf8Aux fuel rest
      | [] => [replacementChar]
    else if 0xE0 ≤ b ∧ b ≤ 0xEF then
      match rest with
      | c1 :: c2 :: rest2 =>
        if utf8Cont c1 && utf8Cont c2 then
          let cp := (b - 0xE0) * 4096 + (c1 - 0x80) * 64 + (c2 - 0x80)
          if 0xD800 ≤ cp ∧ cp ≤ 0xDBFF then
            match rest2 with
            | e1 :: e2 :: e3 :: rest3 =>
              if e1 = 0xED && 0xB0 ≤ e2 && e2 ≤ 0xBF && utf8Cont e3 then
                let low := 0xDC00 + (e2 - 0xB0) * 64 + (e3 - 0x80)
                Char.ofNat (0x10000 + (cp - 0xD800) * 1024 + (low - 0xDC00)) ::
                  mutf8Aux fuel rest3
              else replacementChar :: mutf8Aux fuel rest2
            | _ => replacementChar :: mutf8Aux fuel rest2
          else if 0xDC00 ≤ cp ∧ cp ≤ 0xDFFF then
            replacementChar :: mutf8Aux fuel rest2
          else Char.ofNat cp :: mutf8Aux fuel rest2
        else replacementChar :: mutf8Aux fuel rest
      | _ => [replacementChar]
    else replacementChar :: mutf8Aux fuel rest

def decodeModifiedUtf8 (bs : List Nat) : String := String.mk (mutf8Aux bs.length bs)

/-! ## Byte Reader

Modelled from the spec, section 4.1: a sequential, bounds-checked cursor
over an immutable binary buffer. Every operation either fails with
`UnexpectedEndOfInput` because fewer bytes remain than required, or
succeeds, computes its value from exactly the `width` bytes starting at
the cursor, and advances the cursor by that width. Multi-byte integers are
big-endian. -/

structure ByteReader where
  buf : List Nat
  pos : Nat
deriving Repr, DecidableEq

def ByteReader.remaining (r : ByteReader) : Nat := r.buf.length - r.pos

/-- The `width`-byte slice at the cursor; the single bounds check shared by
all read operations. On success the consumed bytes are exactly
`(r.buf.drop r.pos).take n` — no byte past `r.pos + n` (in particular none
past the buffer end) is ever touched. -/
def readSlice (r : ByteReader) (n : Nat) : Except Err (List Nat × ByteReader) :=
  if n ≤ r.remaining then
    Except.ok ((r.buf.drop r.pos).take n, ⟨r.buf, r.pos + n⟩)
  else Except.error Err.unexpectedEndOfInput

/-- Big-endian value of a byte slice. -/
def beVal (bs : List Nat) : Nat := bs.foldl (fun a b => a * 256 + b) 0

/-- Two's-complement reading of a `bits`-wide big-endian value. -/
def toSigned (bits : Nat) (v : Nat) : Int :=
  if v < 2 ^ (bits - 1) then (v : Int) else (v : Int) - 2 ^ bits

def ByteReader.readU8 (r : ByteReader) : Except Err (Nat × ByteReader) :=
  (readSlice r 1).map (fun p => (beVal p.1, p.2))

def ByteReader.readU16 (r : ByteReader) : Except Err (Nat × ByteReader) :=
  (readSlice r 2).map (fun p => (beVal p.1, p.2))

def ByteReader.readU32 (r : ByteReader) : Except Err (Nat × ByteReader) :=
  (readSlice r 4).map (fun p => (beVal p.1, p.2))

def ByteReader.readU64 (r : ByteReader) : Except Err (Nat × ByteReader) :=
  (readSlice r 8).map (fun p => (beVal p.1, p.2))

def ByteReader.readI8 (r : ByteReader) : Except Err (Int × ByteReader) :=
  (readSlice r 1).map (fun p => (toSigned 8 (beVal p.1), p.2))

def ByteReader.readI16 (r : ByteReader) : Except Err (Int × ByteReader) :=
  (readSlice r 2).map (fun p => (toSigned 16 (beVal p.1), p.2))

def ByteReader.readI32 (r : ByteReader) : Except Err (Int × ByteReader) :=
  (readSlice r 4).map (fun p => (toSigned 32 (beVal p.1), p.2))

def ByteReader.readBytes (r : ByteReader) (n : Nat) : Except Err (List Nat × ByteReader) :=
  readSlice r n

def ByteReader.readModifiedUtf8 (r : ByteReader) (n : Nat) :
    Except Err (String × ByteReader) :=
  (readSlice r n).map (fun p => (decodeModifiedUtf8 p.1, p.2))

def ByteReader.position (r : ByteReader) : Nat := r.pos

def ByteReader.seek (r : ByteReader) (p : Nat) : ByteReader := ⟨r.buf, p⟩

/-- The read operations of the Byte Reader, as one indexed type so that the
bounds contract can be stated once for all of them. -/
inductive ReadOp where
  | u8 | u16 | u32 | u64 | i8 | i16 | i32
  | bytes (n : Nat)
  | modUtf8 (n : Nat)
deriving Repr, DecidableEq

/-- The exact number of bytes the operation requires and consumes. -/
def ReadOp.width : ReadOp → Nat
  | .u8 => 1
  | .u16 => 2
  | .u32 => 4
  | .u64 => 8
  | .i8 => 1
  | .i16 => 2
  | .i32 => 4
  | .bytes n => n
  | .modUtf8 n => n

inductive ReadValue where
  | uint (v : Nat)
  | int (v : Int)
  | raw (bs : List Nat)
  | str (s : String)
deriving Repr, DecidableEq

/-- The value an operation computes from its consumed byte slice. -/
def ReadOp.convert : ReadOp → List Nat → ReadValue
  | .u8, bs => ReadValue.uint (beVal bs)
  | .u16, bs => ReadValue.uint (beVal bs)
  | .u32, bs => ReadValue.uint (beVal bs)
  | .u64, bs => ReadValue.uint (beVal bs)
  | .i8, bs => ReadValue.int (toSigned 8 (beVal bs))
  | .i16, bs => ReadValue.int (toSigned 16 (beVal bs))
  | .i32, bs => ReadValue.int (toSigned 32 (beVal bs))
  | .bytes _, bs => ReadValue.raw bs
  | .modUtf8 _, bs => ReadValue.str (decodeModifiedUtf8 bs)

/-- Run one Byte Reader operation, dispatching to its implementation. -/
def ReadOp.run : ReadOp → ByteReader → Except Err (ReadValue × ByteReader)
  | .u8, r => (r.readU8).map (fun p => (ReadValue.uint p.1, p.2))
  | .u16, r => (r.readU16).map (fun p => (ReadValue.uint p.1, p.2))
  | .u32, r => (r.readU32).map (fun p => (ReadValue.uint p.1, p.2))
  | .u64, r => (r.readU64).map (fun p => (ReadValue.uint p.1, p.2))
  | .i8, r => (r.readI8).map (fun p => (ReadValue.int p.1, p.2))
  | .i16, r => (r.readI16).map (fun p => (ReadValue.int p.1, p.2))
  | .i32, r => (r.readI32).map (fun p => (ReadValue.int p.1, p.2))
  | .bytes n, r => (r.readBytes n).map (fun p => (ReadValue.raw p.1, p.2))
  | .modUtf8 n, r => (r.readModifiedUtf8 n).map (fun p => (ReadValue.str p.1, p.2))

/-! ## Opcode dispatch table

Modelled from the spec, sections 4.5 and the design notes: a static lookup
table indexed by the opcode byte that yields the mnemonic and the operand
shapes (each operand typed as constant-pool index, local-slot index,
branch offset or immediate value); the total instruction length is one
plus the summed operand widths. The three variable-length opcodes
`tableswitch` (0xAA), `lookupswitch` (0xAB) and `wide` (0xC4) are layered
on top as explicit special cases, so the table leaves them (and the
reserved opcodes) unmapped. -/

inductive OpSpec where
  | cpIdx8 | cpIdx16 | local8 | branch16 | branch32 | simm8 | simm16 | uimm8
deriving Repr, DecidableEq

def OpSpec.width : OpSpec → Nat
  | .cpIdx8 => 1
  | .cpIdx16 => 2
  | .local8 => 1
  | .branch16 => 2
  | .branch32 => 4
  | .simm8 => 1
  | .simm16 => 2
  | .uimm8 => 1

def specsWidth (specs : List OpSpec) : Nat := (specs.map OpSpec.width).sum

inductive Operand where
  | cpIndex (idx : Nat)
  | localSlot (idx : Nat)
  | branch (offset : Int)
  | immediate (value : Int)
deriving Repr, DecidableEq

def OpSpec.toOperand : OpSpec → List Nat → Operand
  | .cpIdx8, bs => Operand.cpIndex (beVal bs)
  | .cpIdx16, bs => Operand.cpIndex (beVal bs)
  | .local8, bs => Operand.localSlot (beVal bs)
  | .branch16, bs => Operand.branch (toSigned 16 (beVal bs))
  | .branch32, bs => Operand.branch (toSigned 32 (beVal bs))
  | .simm8, bs => Operand.immediate (toSigned 8 (beVal bs))
  | .simm16, bs => Operand.immediate (toSigned 16 (beVal bs))
  | .uimm8, bs => Operand.immediate ((beVal bs : Int))

def opcodeInfo : Nat → Option (String × List OpSpec)
  | 0x00 => some ("nop", [])
  | 0x01 => some ("aconst_null", [])
  | 0x02 => some ("iconst_m1", [])
  | 0x03 => some ("iconst_0", [])
  | 0x04 => some ("iconst_1", [])
  | 0x05 => some ("iconst_2", [])
  | 0x06 => some ("iconst_3", [])
  | 0x07 => some ("iconst_4", [])
  | 0x08 => some ("iconst_5", [])
  | 0x09 => some ("lconst_0", [])
  | 0x0A => some ("lconst_1", [])
  | 0x0B => some ("fconst_0", [])
  | 0x0C => some ("fconst_1", [])
  | 0x0D => some ("fconst_2", [])
  | 0x0E => some ("dconst_0", [])
  | 0x0F => some ("dconst_1", [])
  | 0x10 => some ("bipush", [OpSpec.simm8])
  | 0x11 => some ("sipush", [OpSpec.simm16])
  | 0x12 => some ("ldc", [OpSpec.cpIdx8])
  | 0x13 => some ("ldc_w", [OpSpec.cpIdx16])
  | 0x14 => some ("ldc2_w", [OpSpec.cpIdx16])
  | 0x15 => some ("iload", [OpSpec.local8])
  | 0x16 => some ("lload", [OpSpec.local8])
  | 0x17 => some ("fload", [OpSpec.local8])
  | 0x18 => some ("dload", [OpSpec.local8])
  | 0x19 => some ("aload", [OpSpec.local8])
  | 0x1A => some ("iload_0", [])
  | 0x1B => some ("iload_1", [])
  | 0x1C => some ("iload_2", [])
  | 0x1D => some ("iload_3", [])
  | 0x1E => some ("lload_0", [])
  | 0x1F => some ("lload_1", [])
  | 0x20 => some ("lload_2", [])
  | 0x21 => some ("lload_3", [])
  | 0x22 => some ("fload_0", [])
  | 0x23 => some ("fload_1", [])
  | 0x24 => some ("fload_2", [])
  | 0x25 => some ("fload_3", [])
  | 0x26 => some ("dload_0", [])
  | 0x27 => some ("dload_1", [])
  | 0x28 => some ("dload_2", [])
  | 0x29 => some ("dload_3", [])
  | 0x2A => some ("aload_0", [])
  | 0x2B => some ("aload_1", [])
  | 0x2C => some ("aload_2", [])
  | 0x2D => some ("aload_3", [])
  | 0x2E => some ("iaload", [])
  | 0x2F => some ("laload", [])
  | 0x30 => some ("faload", [])
  | 0x31 => some ("daload", [])
  | 0x32 => some ("aaload", [])
  | 0x33 => some ("baload", [])
  | 0x34 => some ("caload", [])
  | 0x35 => some ("saload", [])
  | 0x36 => some ("istore", [OpSpec.local8])
  | 0x37 => some ("lstore", [OpSpec.local8])
  | 0x38 => some ("fstore", [OpSpec.local8])
  | 0x39 => some ("dstore", [OpSpec.local8])
  | 0x3A => some ("astore", [OpSpec.local8])
  | 0x3B => some ("istore_0", [])
  | 0x3C => some ("istore_1", [])
  | 0x3D => some ("istore_2", [])
  | 0x3E => some ("istore_3", [])
  | 0x3F => some ("lstore_0", [])
  | 0x40 => some ("lstore_1", [])
  | 0x41 => some ("lstore_2", [])
  | 0x42 => some ("lstore_3", [])
  | 0x43 => some ("fstore_0", [])
  | 0x44 => some ("fstore_1", [])
  | 0x45 => some ("fstore_2", [])
  | 0x46 => some ("fstore_3", [])
  | 0x47 => some ("dstore_0", [])
  | 0x48 => some ("dstore_1", [])
  | 0x49 => some ("dstore_2", [])
  | 0x4A => some ("dstore_3", [])
  | 0x4B => some ("astore_0", [])
  | 0x4C => some ("astore_1", [])
  | 0x4D => some ("astore_2", [])
  | 0x4E => some ("astore_3", [])
  | 0x4F => some ("iastore", [])
  | 0x50 => some ("lastore", [])
  | 0x51 => some ("fastore", [])
  | 0x52 => some ("dastore", [])
  | 0x53 => some ("aastore", [])
  | 0x54 => some ("bastore", [])
  | 0x55 => some ("castore", [])
  | 0x56 => some ("sastore", [])
  | 0x57 => some ("pop", [])
  | 0x58 => some ("pop2", [])
  | 0x59 => some ("dup", [])
  | 0x5A => some ("dup_x1", [])
  | 0x5B => some ("dup_x2", [])
  | 0x5C => some ("dup2", [])
  | 0x5D => some ("dup2_x1", [])
  | 0x5E => some ("dup2_x2", [])
  | 0x5F => some ("swap", [])
  | 0x60 => some ("iadd", [])
  | 0x61 => some ("ladd", [])
  | 0x62 => some ("fadd", [])
  | 0x63 => some ("dadd", [])
  | 0x64 => some ("isub", [])
  | 0x65 => some ("lsub", [])
  | 0x66 => some ("fsub", [])
  | 0x67 => some ("dsub", [])
  | 0x68 => some ("imul", [])
  | 0x69 => some ("lmul", [])
  | 0x6A => some ("fmul", [])
  | 0x6B => some ("dmul", [])
  | 0x6C => some ("idiv", [])
  | 0x6D => some ("ldiv", [])
  | 0x6E => some ("fdiv", [])
  | 0x6F => some ("ddiv", [])
  | 0x70 => some ("irem", [])
  | 0x71 => some ("lrem", [])
  | 0x72 => some ("frem", [])
  | 0x73 => some ("drem", [])
  | 0x74 => some ("ineg", [])
  | 0x75 => some ("lneg", [])
  | 0x76 => some ("fneg", [])
  | 0x77 => some ("dneg", [])
  | 0x78 => some ("ishl", [])
  | 0x79 => some ("lshl", [])
  | 0x7A => some ("ishr", [])
  | 0x7B => some ("lshr", [])
  | 0x7C => some ("iushr", [])
  | 0x7D => some ("lushr", [])
  | 0x7E => some ("iand", [])
  | 0x7F => some ("land", [])
  | 0x80 => some ("ior", [])
  | 0x81 => some ("lor", [])
  | 0x82 => some ("ixor", [])
  | 0x83 => some ("lxor", [])
  | 0x84 => some ("iinc", [OpSpec.local8, OpSpec.simm8])
  | 0x85 => some ("i2l", [])
  | 0x86 => some ("i2f", [])
  | 0x87 => some ("i2d", [])
  | 0x88 => some ("l2i", [])
  | 0x89 => some ("l2f", [])
  | 0x8A => some ("l2d", [])
  | 0x8B => some ("f2i", [])
  | 0x8C => some ("f2l", [])
  | 0x8D => some ("f2d", [])
  | 0x8E => some ("d2i", [])
  | 0x8F => some ("d2l", [])
  | 0x90 => some ("d2f", [])
  | 0x91 => some ("i2b", [])
  | 0x92 => some ("i2c", [])
  | 0x93 => some ("i2s", [])
  | 0x94 => some ("lcmp", [])
  | 0x95 => some ("fcmpl", [])
  | 0x96 => some ("fcmpg", [])
  | 0x97 => some ("dcmpl", [])
  | 0x98 => some ("dcmpg", [])
  | 0x99 => some ("ifeq", [OpSpec.branch16])
  | 0x9A => some ("ifne", [OpSpec.branch16])
  | 0x9B => some ("iflt", [OpSpec.branch16])
  | 0x9C => some ("ifge", [OpSpec.branch16])
  | 0x9D => some ("ifgt", [OpSpec.branch16])
  | 0x9E => some ("ifle", [OpSpec.branch16])
  | 0x9F => some ("if_icmpeq", [OpSpec.branch16])
  | 0xA0 => some ("if_icmpne", [OpSpec.branch16])
  | 0xA1 => some ("if_icmplt", [OpSpec.branch16])
  | 0xA2 => some ("if_icmpge", [OpSpec.branch16])
  | 0xA3 => some ("if_icmpgt", [OpSpec.branch16])
  | 0xA4 => some ("if_icmple", [OpSpec.branch16])
  | 0xA5 => some ("if_acmpeq", [OpSpec.branch16])
  | 0xA6 => some ("if_acmpne", [OpSpec.branch16])
  | 0xA7 => some ("goto", [OpSpec.branch16])
  | 0xA8 => some ("jsr", [OpSpec.branch16])
  | 0xA9 => some ("ret", [OpSpec.local8])
  | 0xAC => some ("ireturn", [])
  | 0xAD => some ("lreturn", [])
  | 0xAE => some ("freturn", [])
  | 0xAF => some ("dreturn", [])
  | 0xB0 => some ("areturn", [])
  | 0xB1 => some ("return", [])
  | 0xB2 => some ("getstatic", [OpSpec.cpIdx16])
  | 0xB3 => some ("putstatic", [OpSpec.cpIdx16])
  | 0xB4 => some ("getfield", [OpSpec.cpIdx16])
  | 0xB5 => some ("putfield", [OpSpec.cpIdx16])
  | 0xB6 => some ("invokevirtual", [OpSpec.cpIdx16])
  | 0xB7 => some ("invokespecial", [OpSpec.cpIdx16])
  | 0xB8 => some ("invokestatic", [OpSpec.cpIdx16])
  | 0xB9 => some ("invokeinterface", [OpSpec.cpIdx16, OpSpec.uimm8, OpSpec.uimm8])
  | 0xBA => some ("invokedynamic", [OpSpec.cpIdx16, OpSpec.uimm8, OpSpec.uimm8])
  | 0xBB => some ("new", [OpSpec.cpIdx16])
  | 0xBC => some ("newarray", [OpSpec.uimm8])
  | 0xBD => some ("anewarray", [OpSpec.cpIdx16])
  | 0xBE => some ("arraylength", [])
  | 0xBF => some ("athrow", [])
  | 0xC0 => some ("checkcast", [OpSpec.cpIdx16])
  | 0xC1 => some ("instanceof", [OpSpec.cpIdx16])
  | 0xC2 => some ("monitorenter", [])
  | 0xC3 => some ("monitorexit", [])
  | 0xC5 => some ("multianewarray", [OpSpec.cpIdx16, OpSpec.uimm8])
  | 0xC6 => some ("ifnull", [OpSpec.branch16])
  | 0xC7 => some ("ifnonnull", [OpSpec.branch16])
  | 0xC8 => some ("goto_w", [OpSpec.branch32])
  | 0xC9 => some ("jsr_w", [OpSpec.branch32])
  | _ => none

/-! ## Bytecode Disassembler

Modelled from the spec, section 4.5: a cursor walks the Code attribute's
raw instruction bytes from offset 0 to the declared code length. At each
offset one opcode byte is read, its operand-encoding rule is looked up,
operands are decoded, one `Instruction` record (byte offset, opcode,
mnemonic, typed operand list, instruction byte length) is emitted and the
cursor advances by the instruction length. `tableswitch` and
`lookupswitch` align to the next 4-byte boundary relative to the code
start and have computed lengths; `wide` re-dispatches on the following
opcode byte with widened operands; an unmapped opcode byte yields
`UnknownOpcode` carrying the byte value and offset. Per section 4.4 the
disassembler reads from the length-bounded attribute payload, and the Code
decoder checks afterwards that the instruction walk consumed exactly the
declared code length, signalling `AttributeLengthMismatch` otherwise. -/

structure Instruction where
  offset : Nat
  opcode : Nat
  mnemonic : String
  operands : List Operand
  length : Nat
deriving Repr, DecidableEq

def readByteAt (payload : List Nat) (pos : Nat) : Except Err Nat :=
  match payload.get? pos with
  | some b => Except.ok b
  | none => Except.error Err.unexpectedEndOfInput

def readBytesAt (payload : List Nat) (pos n : Nat) : Except Err (List Nat) :=
  if pos + n ≤ payload.length then Except.ok ((payload.drop pos).take n)
  else Except.error Err.unexpectedEndOfInput

def readI32At (payload : List Nat) (pos : Nat) : Except Err Int :=
  (readBytesAt payload pos 4).map (fun bs => toSigned 32 (beVal bs))

def readI32List (payload : List Nat) (pos : Nat) : Nat → Except Err (List Int)
  | 0 => Except.ok []
  | n + 1 =>
    match readI32At payload pos with
    | Except.error e => Except.error e
    | Except.ok v =>
      match readI32List payload (pos + 4) n with
      | Except.error e => Except.error e
      | Except.ok rest => Except.ok (v :: rest)

/-- `lookupswitch` (match, offset) pairs as typed operands. -/
def pairOperands : List Int → List Operand
  | [] => []
  | [m] => [Operand.immediate m]
  | m :: o :: rest => Operand.immediate m :: Operand.branch o :: pairOperands rest

def decodeOperands (payload : List Nat) (pos : Nat) :
    List OpSpec → Except Err (List Operand)
  | [] => Except.ok []
  | sp :: rest =>
    match readBytesAt payload pos sp.width with
    | Except.error e => Except.error e
    | Except.ok bs =>
      match decodeOperands payload (pos + sp.width) rest with
      | Except.error e => Except.error e
      | Except.ok os => Except.ok (sp.toOperand bs :: os)

/-- Padding to the next 4-byte boundary for an instruction whose opcode is
at `pos` (operands start at `pos + 1`), relative to the code start. -/
def switchPad (pos : Nat) : Nat := (4 - (pos + 1) % 4) % 4

def decodeTableswitch (payload : List Nat) (pos : Nat) :
    Except Err (String × List Operand × Nat) :=
  let pad := switchPad pos
  let base := pos + 1 + pad
  match readI32At payload base, readI32At payload (base + 4),
      readI32At payload (base + 8) with
  | Except.ok dflt, Except.ok lo, Except.ok hi =>
    if hi < lo then Except.error Err.malformedSwitchTable
    else
      let n := (hi - lo).toNat + 1
      match readI32List payload (base + 12) n with
      | Except.error e => Except.error e
      | Except.ok offs =>
        Except.ok ("tableswitch",
          Operand.branch dflt :: Operand.immediate lo :: Operand.immediate hi ::
            offs.map Operand.branch,
          pad + 12 + 4 * n)
  | Except.error e, _, _ => Except.error e
  | _, Except.error e, _ => Except.error e
  | _, _, Except.error e => Except.error e

def decodeLookupswitch (payload : List Nat) (pos : Nat) :
    Except Err (String × List Operand × Nat) :=
  let pad := switchPad pos
  let base := pos + 1 + pad
  match readI32At payload base, readI32At payload (base + 4) with
  | Except.ok dflt, Except.ok npairs =>
    if npairs < 0 then Except.error Err.malformedSwitchTable
    else
      let n := npairs.toNat
      match readI32List payload (base + 8) (2 * n) with
      | Except.error e => Except.error e
      | Except.ok vals =>
        Except.ok ("lookupswitch",
          Operand.branch dflt :: Operand.immediate npairs :: pairOperands vals,
          pad + 8 + 8 * n)
  | Except.error e, _ => Except.error e
  | _, Except.error e => Except.error e

def wideTargets : List Nat :=
  [0x15, 0x16, 0x17, 0x18, 0x19, 0x36, 0x37, 0x38, 0x39, 0x3A, 0xA9]

def decodeWide (payload : List Nat) (pos : Nat) :
    Except Err (String × List Operand × Nat) :=
  match readByteAt payload (pos + 1) with
  | Except.error e => Except.error e
  | Except.ok wop =>
    if wop = 0x84 then
      match readBytesAt payload (pos + 2) 2, readBytesAt payload (pos + 4) 2 with
      | Except.ok idx, Except.ok cst =>
        Except.ok ("wide iinc",
          [Operand.localSlot (beVal idx), Operand.immediate (toSigned 16 (beVal cst))],
          5)
      | Except.error e, _ => Except.error e
      | _, Except.error e => Except.error e
    else if wop ∈ wideTargets then
      match readBytesAt payload (pos + 2) 2 with
      | Except.error e => Except.error e
      | Except.ok idx =>
        let mn := match opcodeInfo wop with
          | some (m, _) => "wide " ++ m
          | none => "wide"
        Except.ok (mn, [Operand.localSlot (beVal idx)], 3)
    else Except.error (Err.unknownOpcode wop (pos + 1))

/-- Mnemonic, typed operands and extra (operand) byte length for the
instruction whose opcode byte `op` sits at `pos`. -/
def decodeInstrBody (payload : List Nat) (pos : Nat) (op : Nat) :
    Except Err (String × List Operand × Nat) :=
  if op = 0xAA then decodeTableswitch payload pos
  else if op = 0xAB then decodeLookupswitch payload pos
  else if op = 0xC4 then decodeWide payload pos
  else
    match opcodeInfo op with
    | none => Except.error (Err.unknownOpcode op pos)
    | some (mn, specs) =>
      match decodeOperands payload (pos + 1) specs with
      | Except.error e => Except.error e
      | Except.ok ops => Except.ok (mn, ops, specsWidth specs)

/-- Decode the instruction at `pos`; returns the record together with its
extra operand length (the record's `length` is one plus that). -/
def decodeInstrAt (payload : List Nat) (pos : Nat) :
    Except Err (Instruction × Nat) :=
  match readByteAt payload pos with
  | Except.error e => Except.error e
  | Except.ok op =>
    match decodeInstrBody payload pos op with
    | Except.error e => Except.error e
    | Except.ok (mn, ops, extra) =>
      Except.ok ({ offset := pos, opcode := op, mnemonic := mn,
                   operands := ops, length := 1 + extra }, extra)

/-- The instruction walk: decode instructions from `pos` while
`pos < codeLen`, returning the emitted records and the final cursor. The
fuel only bounds the recursion; since every instruction consumes at least
one byte, `codeLen + 1` fuel is always enough and the fuel-exhaustion
branch is unreachable from `disassembleCode`. -/
def walkInstrs : Nat → List Nat → Nat → Nat → Except Err (List Instruction × Nat)
  | 0, _, _, _ => Except.error Err.unexpectedEndOfInput
  | fuel + 1, payload, codeLen, pos =>
    if pos < codeLen then
      match decodeInstrAt payload pos with
      | Except.error e => Except.error e
      | Except.ok (i, extra) =>
        match walkInstrs fuel payload codeLen (pos + 1 + extra) with
        | Except.error e => Except.error e
        | Except.ok (rest, endPos) => Except.ok (i :: rest, endPos)
    else Except.ok ([], pos)

/-- Disassemble the instruction stream of a Code attribute. `payload` is
the length-bounded attribute sub-reader's remaining bytes starting at the
code array, `codeLen` the declared code-length field. If the instruction
walk does not consume exactly `codeLen` bytes, the instruction lengths do
not add up to the declared code length and decoding fails with
`AttributeLengthMismatch`. -/
def disassembleCode (payload : List Nat) (codeLen : Nat) :
    Except Err (List Instruction) :=
  match walkInstrs (codeLen + 1) payload codeLen 0 with
  | Except.error e => Except.error e
  | Except.ok (instrs, endPos) =>
    if endPos = codeLen then Except.ok instrs
    else Except.error Err.attributeLengthMismatch

/-- Contiguous, non-overlapping coverage: the instructions tile the byte
range from `pos` to `endPos`, each starting where the previous one
ended. -/
def instrChain : Nat → List Instruction → Nat → Prop
  | pos, [], endPos => endPos = pos
  | pos, i :: rest, endPos => i.offset = pos ∧ instrChain (pos + i.length) rest endPos

/-! ## Constant Pool Loader

Modelled from the spec, section 4.2: the 2-byte pool count is read, then
tagged entries are decoded one per step into a table addressable by
1-based index up to `count - 1` (slot 0 is reserved and unused: the slot
list begins at index 1). A Long or Double entry advances the index cursor
by 2: the following slot is reserved and must not be separately decoded.
An unrecognized tag byte fails with `InvalidConstantTag`; running out of
bytes mid-entry fails with `TruncatedConstantPool`. `resolve` fails with
`InvalidPoolIndex` for index 0, an out-of-range index, or an index
pointing at a reserved double slot. -/

inductive CpInfo where
  | utf8 (s : String)
  | intConst (v : Int)
  | floatConst (bits : Nat)
  | longConst (v : Int)
  | doubleConst (bits : Nat)
  | classRef (nameIndex : Nat)
  | stringRef (utf8Index : Nat)
  | fieldref (classIndex : Nat) (nameAndTypeIndex : Nat)
  | methodref (classIndex : Nat) (nameAndTypeIndex : Nat)
  | interfaceMethodref (classIndex : Nat) (nameAndTypeIndex : Nat)
  | nameAndType (nameIndex : Nat) (descIndex : Nat)
  | methodHandle (refKind : Nat) (refIndex : Nat)
  | methodType (descIndex : Nat)
  | dynamic (bootstrapIndex : Nat) (nameAndTypeIndex : Nat)
  | invokeDynamic (bootstrapIndex : Nat) (nameAndTypeIndex : Nat)
  | moduleRef (nameIndex : Nat)
  | packageRef (nameIndex : Nat)
deriving Repr, DecidableEq

inductive PoolSlot where
  | entry (e : CpInfo)
  | reservedWide
deriving Repr, DecidableEq

structure ConstantPool where
  count : Nat
  slots : List PoolSlot
deriving Repr, DecidableEq

/-- Decode one tagged constant-pool entry; the boolean is true for the
double-slot (Long/Double) kinds. -/
def decodeCpEntry (r : ByteReader) : Except Err (CpInfo × Bool × ByteReader) := do
  let (tag, r1) ← r.readU8
  match tag with
  | 1 => do
    let (len, r2) ← r1.readU16
    let (s, r3) ← r2.readModifiedUtf8 len
    pure (CpInfo.utf8 s, false, r3)
  | 3 => do
    let (v, r2) ← r1.readU32
    pure (CpInfo.intConst (toSigned 32 v), false, r2)
  | 4 => do
    let (v, r2) ← r1.readU32
    pure (CpInfo.floatConst v, false, r2)
  | 5 => do
    let (v, r2) ← r1.readU64
    pure (CpInfo.longConst (toSigned 64 v), true, r2)
  | 6 => do
    let (v, r2) ← r1.readU64
    pure (CpInfo.doubleConst v, true, r2)
  | 7 => do
    let (i, r2) ← r1.readU16
    pure (CpInfo.classRef i, false, r2)
  | 8 => do
    let (i, r2) ← r1.readU16
    pure (CpInfo.stringRef i, false, r2)
  | 9 => do
    let (c, r2) ← r1.readU16
    let (n, r3) ← r2.readU16
    pure (CpInfo.fieldref c n, false, r3)
  | 10 => do
    let (c, r2) ← r1.readU16
    let (n, r3) ← r2.readU16
    pure (CpInfo.methodref c n, false, r3)
  | 11 => do
    let (c, r2) ← r1.readU16
    let (n, r3) ← r2.readU16
    pure (CpInfo.interfaceMethodref c n, false, r3)
  | 12 => do
    let (n, r2) ← r1.readU16
    let (d, r3) ← r2.readU16
    pure (CpInfo.nameAndType n d, false, r3)
  | 15 => do
    let (k, r2) ← r1.readU8
    let (i, r3) ← r2.readU16
    pure (CpInfo.methodHandle k i, false, r3)
  | 16 => do
    let (d, r2) ← r1.readU16
    pure (CpInfo.methodType d, false, r2)
  | 17 => do
    let (b, r2) ← r1.readU16
    let (n, r3) ← r2.readU16
    pure (CpInfo.dynamic b n, false, r3)
  | 18 => do
    let (b, r2) ← r1.readU16
    let (n, r3) ← r2.readU16
    pure (CpInfo.invokeDynamic b n, false, r3)
  | 19 => do
    let (i, r2) ← r1.readU16
    pure (CpInfo.moduleRef i, false, r2)
  | 20 => do
    let (i, r2) ← r1.readU16
    pure (CpInfo.packageRef i, false, r2)
  | t => Except.error (Err.invalidConstantTag t)

/-- One entry decode with the section's error policy: running out of bytes
mid-entry surfaces as `TruncatedConstantPool`. -/
def decodeCpEntryT (r : ByteReader) : Except Err (CpInfo × Bool × ByteReader) :=
  match decodeCpEntry r with
  | Except.error Err.unexpectedEndOfInput => Except.error Err.truncatedConstantPool
  | x => x

/-- The entry loop, from index `i` while `i < count`. The fuel only bounds
the recursion; every step advances the index, so `count + 1` fuel is
always enough and the fuel-exhaustion branch is unreachable from
`loadConstantPool`. -/
def loadPoolEntries : Nat → ByteReader → Nat → Nat →
    Except Err (List PoolSlot × ByteReader)
  | 0, _, _, _ => Except.error Err.truncatedConstantPool
  | fuel + 1, r, count, i =>
    if i < count then
      match decodeCpEntryT r with
      | Except.error e => Except.error e
      | Except.ok (e, wide, r1) =>
        if wide then
          match loadPoolEntries fuel r1 count (i + 2) with
          | Except.error e2 => Except.error e2
          | Except.ok (rest, r2) =>
            Except.ok (PoolSlot.entry e :: PoolSlot.reservedWide :: rest, r2)
        else
          match loadPoolEntries fuel r1 count (i + 1) with
          | Except.error e2 => Except.error e2
          | Except.ok (rest, r2) => Except.ok (PoolSlot.entry e :: rest, r2)
    else Except.ok ([], r)

/-- Load the constant pool from a reader positioned at the 2-byte pool
count. `slots` holds the decoded table for indices 1 .. count-1 in order
(`slots.get? (i-1)` is index `i`). -/
def loadConstantPool (r : ByteReader) : Except Err (ConstantPool × ByteReader) :=
  match r.readU16 with
  | Except.error e => Except.error e
  | Except.ok (count, r1) =>
    match loadPoolEntries (count + 1) r1 count 1 with
    | Except.error e => Except.error e
    | Except.ok (slots, r2) => Except.ok ({ count := count, slots := slots }, r2)

/-- Bounds-checked table lookup: fails with `InvalidPoolIndex` for index 0,
an index at or beyond the declared count, or an index pointing at the
reserved second slot of a Long/Double entry. -/
def resolve (p : ConstantPool) (idx : Nat) : Except Err CpInfo :=
  if idx = 0 ∨ p.count ≤ idx then Except.error Err.invalidPoolIndex
  else
    match p.slots.get? (idx - 1) with
    | some (PoolSlot.entry e) => Except.ok e
    | some PoolSlot.reservedWide => Except.error Err.invalidPoolIndex
    | none => Except.error Err.invalidPoolIndex

/-- Typed accessor: the Utf8 string at `idx`, failing with
`ConstantTypeMismatch` when the entry is of another kind. -/
def utf8At (p : ConstantPool) (idx : Nat) : Except Err String :=
  match resolve p idx with
  | Except.ok (CpInfo.utf8 s) => Except.ok s
  | Except.ok _ => Except.error Err.constantTypeMismatch
  | Except.error e => Except.error e

/-- Typed accessor: two-hop resolution of a Class entry's name. -/
def classNameAt (p : ConstantPool) (idx : Nat) : Except Err String :=
  match resolve p idx with
  | Except.ok (CpInfo.classRef n) => utf8At p n
  | Except.ok _ => Except.error Err.constantTypeMismatch
  | Except.error e => Except.error e

/-! ## Attributes and the Classfile Structure Loader

Modelled from the spec, sections 3, 4.3 and 4.4. Attribute payloads form a
fixed set of decoded variants with a raw fallback for unrecognized names
(forward compatibility) and an inline `decodeFailed` placeholder realising
section 7's partial-failure tolerance: an error inside one attribute is
recorded in the model and the rest of the class continues to decode. Each
known payload decoder runs on a sub-reader restricted to exactly the
declared length and `AttributeLengthMismatch` is signalled when the bytes
consumed differ from that length. The spec bounds attribute recursion at
two levels (top-level attribute → Code → nested attribute), which the
model mirrors with a nested attribute layer that holds only the simple
payload kinds. -/

inductive SimplePayload where
  | constantValue (idx : Nat)
  | exceptions (idxs : List Nat)
  | lineNumberTable (entries : List (Nat × Nat))
  | sourceFile (idx : Nat)
  | signature (idx : Nat)
  | deprecatedMarker
  | raw (bytes : List Nat)
  | decodeFailed (e : Err)
deriving Repr, DecidableEq

structure NestedAttr where
  nameIndex : Nat
  name : String
  payload : SimplePayload
deriving Repr, DecidableEq

structure ExcEntry where
  startPc : Nat
  endPc : Nat
  handlerPc : Nat
  catchType : Nat
deriving Repr, DecidableEq

structure CodeAttr where
  maxStack : Nat
  maxLocals : Nat
  codeLength : Nat
  code : List Instruction
  exceptionTable : List ExcEntry
  attributes : List NestedAttr
deriving Repr, DecidableEq

inductive TopPayload where
  | code (c : CodeAttr)
  | simple (p : SimplePayload)
deriving Repr, DecidableEq

structure AttributeRec where
  nameIndex : Nat
  name : String
  payload : TopPayload
deriving Repr, DecidableEq

structure MemberInfo where
  accessFlags : Nat
  nameIndex : Nat
  descIndex : Nat
  attributes : List AttributeRec
deriving Repr, DecidableEq

structure ClassFile where
  minorVersion : Nat
  majorVersion : Nat
  pool : ConstantPool
  accessFlags : Nat
  thisClass : Nat
  superClass : Nat
  interfaces : List Nat
  fields : List MemberInfo
  methods : List MemberInfo
  attributes : List AttributeRec
deriving Repr, DecidableEq

/-- Run a payload decoder on a sub-reader restricted to exactly the
attribute's declared bytes, then assert full consumption; a leftover or
missing byte count is an `AttributeLengthMismatch`. -/
def withExactPayload {α : Type} (payload : List Nat)
    (dec : ByteReader → Except Err (α × ByteReader)) : Except Err α :=
  match dec ⟨payload, 0⟩ with
  | Except.error e => Except.error e
  | Except.ok (a, r1) =>
    if r1.pos = payload.length then Except.ok a
    else Except.error Err.attributeLengthMismatch

def loadU16List : Nat → ByteReader → Except Err (List Nat × ByteReader)
  | 0, r => Except.ok ([], r)
  | n + 1, r => do
    let (v, r1) ← r.readU16
    let (rest, r2) ← loadU16List n r1
    pure (v :: rest, r2)

def loadLineEntries : Nat → ByteReader → Except Err (List (Nat × Nat) × ByteReader)
  | 0, r => Except.ok ([], r)
  | n + 1, r => do
    let (startPc, r1) ← r.readU16
    let (line, r2) ← r1.readU16
    let (rest, r3) ← loadLineEntries n r2
    pure ((startPc, line) :: rest, r3)

def loadExcEntries : Nat → ByteReader → Except Err (List ExcEntry × ByteReader)
  | 0, r => Except.ok ([], r)
  | n + 1, r => do
    let (s, r1) ← r.readU16
    let (e, r2) ← r1.readU16
    let (h, r3) ← r2.readU16
    let (c, r4) ← r3.readU16
    let (rest, r5) ← loadExcEntries n r4
    pure (⟨s, e, h, c⟩ :: rest, r5)

def decodeSimplePayloadE (name : String) (payload : List Nat) :
    Except Err SimplePayload :=
  if name = "ConstantValue" then
    (withExactPayload payload ByteReader.readU16).map SimplePayload.constantValue
  else if name = "Exceptions" then
    (withExactPayload payload (fun r => do
      let (n, r1) ← r.readU16
      loadU16List n r1)).map SimplePayload.exceptions
  else if name = "LineNumberTable" then
    (withExactPayload payload (fun r => do
      let (n, r1) ← r.readU16
      loadLineEntries n r1)).map SimplePayload.lineNumberTable
  else if name = "SourceFile" then
    (withExactPayload payload ByteReader.readU16).map SimplePayload.sourceFile
  else if name = "Signature" then
    (withExactPayload payload ByteReader.readU16).map SimplePayload.signature
  else if name = "Deprecated" then
    if payload.length = 0 then Except.ok SimplePayload.deprecatedMarker
    else Except.error Err.attributeLengthMismatch
  else Except.ok (SimplePayload.raw payload)

/-- Section 7 policy at the attribute boundary: a decode error becomes an
inline placeholder instead of aborting the class. -/
def decodeSimplePayload (name : String) (payload : List Nat) : SimplePayload :=
  match decodeSimplePayloadE name payload with
  | Except.ok p => p
  | Except.error e => SimplePayload.decodeFailed e

def loadNestedAttr (pool : ConstantPool) (r : ByteReader) :
    Except Err (NestedAttr × ByteReader) := do
  let (nameIdx, r1) ← r.readU16
  let (len, r2) ← r1.readU32
  let (payload, r3) ← r2.readBytes len
  match utf8At pool nameIdx with
  | Except.error e =>
    pure ({ nameIndex := nameIdx, name := "", payload := SimplePayload.decodeFailed e }, r3)
  | Except.ok nm =>
    pure ({ nameIndex := nameIdx, name := nm, payload := decodeSimplePayload nm payload }, r3)

def loadNestedAttrs : Nat → ConstantPool → ByteReader →
    Except Err (List NestedAttr × ByteReader)
  | 0, _, r => Except.ok ([], r)
  | n + 1, pool, r => do
    let (a, r1) ← loadNestedAttr pool r
    let (rest, r2) ← loadNestedAttrs n pool r1
    pure (a :: rest, r2)

/-- Decode a Code attribute payload: fixed header, the instruction stream
(delegated to the Bytecode Disassembler on the length-bounded remainder),
the exception table and the nested attributes, with the full-consumption
check of `withExactPayload` around the whole payload. -/
def decodeCodeAttr (pool : ConstantPool) (payload : List Nat) :
    Except Err CodeAttr :=
  withExactPayload payload (fun r => do
    let (maxStack, r1) ← r.readU16
    let (maxLocals, r2) ← r1.readU16
    let (codeLen, r3) ← r2.readU32
    match disassembleCode (r3.buf.drop r3.pos) codeLen with
    | Except.error e => Except.error e
    | Except.ok instrs => do
      let r4 := r3.seek (r3.pos + codeLen)
      let (etCount, r5) ← r4.readU16
      let (excs, r6) ← loadExcEntries etCount r5
      let (naCount, r7) ← r6.readU16
      let (nested, r8) ← loadNestedAttrs naCount pool r7
      pure ({ maxStack := maxStack, maxLocals := maxLocals, codeLength := codeLen,
              code := instrs, exceptionTable := excs, attributes := nested }, r8))

def decodeTopPayload (pool : ConstantPool) (name : String) (payload : List Nat) :
    TopPayload :=
  if name = "Code" then
    match decodeCodeAttr pool payload with
    | Except.ok c => TopPayload.code c
    | Except.error e => TopPayload.simple (SimplePayload.decodeFailed e)
  else TopPayload.simple (decodeSimplePayload name payload)

def loadAttribute (pool : ConstantPool) (r : ByteReader) :
    Except Err (AttributeRec × ByteReader) := do
  let (nameIdx, r1) ← r.readU16
  let (len, r2) ← r1.readU32
  let (payload, r3) ← r2.readBytes len
  match utf8At pool nameIdx with
  | Except.error e =>
    pure ({ nameIndex := nameIdx, name := "",
            payload := TopPayload.simple (SimplePayload.decodeFailed e) }, r3)
  | Except.ok nm =>
    pure ({ nameIndex := nameIdx, name := nm,
            payload := decodeTopPayload pool nm payload }, r3)

def loadAttributes : Nat → ConstantPool → ByteReader →
    Except Err (List AttributeRec × ByteReader)
  | 0, _, r => Except.ok ([], r)
  | n + 1, pool, r => do
    let (a, r1) ← loadAttribute pool r
    let (rest, r2) ← loadAttributes n pool r1
    pure (a :: rest, r2)

def loadMember (pool : ConstantPool) (r : ByteReader) :
    Except Err (MemberInfo × ByteReader) := do
  let (flags, r1) ← r.readU16
  let (nameIdx, r2) ← r1.readU16
  let (descIdx, r3) ← r2.readU16
  let (aCount, r4) ← r3.readU16
  let (attrs, r5) ← loadAttributes aCount pool r4
  pure ({ accessFlags := flags, nameIndex := nameIdx, descIndex := descIdx,
          attributes := attrs }, r5)

def loadMembers : Nat → ConstantPool → ByteReader →
    Except Err (List MemberInfo × ByteReader)
  | 0, _, r => Except.ok ([], r)
  | n + 1, pool, r => do
    let (m, r1) ← loadMember pool r
    let (rest, r2) ← loadMembers n pool r1
    pure (m :: rest, r2)

/-- Section 4.3 policy: a read past the end of the buffer while decoding
the class structure surfaces as `TruncatedClassFile`. -/
def remapEof {α : Type} : Except Err α → Except Err α
  | Except.error Err.unexpectedEndOfInput => Except.error Err.truncatedClassFile
  | x => x

/-- The Classfile Structure Loader (spec section 4.3), decoding in strict
order: magic (rejecting anything other than 0xCAFEBABE with
`NotAClassFile` before any further section is decoded), minor version,
major version, constant pool, access flags, this-class, super-class,
interfaces, fields, methods and top-level attributes. The result is all
or nothing: an unrecoverable error yields no partial model. (The spec's
side condition that a zero super-class index is permitted only for
`java/lang/Object` names no error of the taxonomy and is not checked
here.) -/
def loadClassFile (buf : List Nat) : Except Err ClassFile :=
  match ByteReader.readU32 ⟨buf, 0⟩ with
  | Except.error _ => Except.error Err.truncatedClassFile
  | Except.ok (magic, r1) =>
    if magic = 0xCAFEBABE then
      (do
        let (minor, r2) ← remapEof r1.readU16
        let (major, r3) ← remapEof r2.readU16
        let (pool, r4) ← loadConstantPool r3
        let (flags, r5) ← remapEof r4.readU16
        let (thisC, r6) ← remapEof r5.readU16
        let (superC, r7) ← remapEof r6.readU16
        let (ifCount, r8) ← remapEof r7.readU16
        let (ifs, r9) ← remapEof (loadU16List ifCount r8)
        let (fCount, r10) ← remapEof r9.readU16
        let (fields, r11) ← remapEof (loadMembers fCount pool r10)
        let (mCount, r12) ← remapEof r11.readU16
        let (methods, r13) ← remapEof (loadMembers mCount pool r12)
        let (aCount, r14) ← remapEof r13.readU16
        let (attrs, _) ← remapEof (loadAttributes aCount pool r14)
        pure { minorVersion := minor, majorVersion := major, pool := pool,
               accessFlags := flags, thisClass := thisC, superClass := superC,
               interfaces := ifs, fields := fields, methods := methods,
               attributes := attrs })
    else Except.error Err.notAClassFile

/-! ## Renderer

Modelled from the spec, sections 4.6 and 6: a pure function from a fully
decoded `ClassFile` to text, structured as header, constant-pool listing,
field listing, method listing (with decoded bytecode offsets and
mnemonics) and trailing attributes. Branch operands are stored relative
and the renderer displays the recomputed absolute target
(`offset + relativeOffset`). To make side-effect-freedom and idempotence
statable, repeated rendering into an output sink is modelled explicitly by
`renderTo`/`renderTimes`. -/

def newlineStr : String := "\n"

def errName : Err → String
  | Err.unexpectedEndOfInput => "UnexpectedEndOfInput"
  | Err.notAClassFile => "NotAClassFile"
  | Err.unsupportedVersion => "UnsupportedVersion"
  | Err.invalidConstantTag _ => "InvalidConstantTag"
  | Err.truncatedConstantPool => "TruncatedConstantPool"
  | Err.invalidPoolIndex => "InvalidPoolIndex"
  | Err.constantTypeMismatch => "ConstantTypeMismatch"
  | Err.truncatedClassFile => "TruncatedClassFile"
  | Err.attributeLengthMismatch => "AttributeLengthMismatch"
  | Err.unknownOpcode _ _ => "UnknownOpcode"
  | Err.malformedSwitchTable => "MalformedSwitchTable"

def hexString (n : Nat) : String := String.mk ('0' :: 'x' :: natToHex n)

def renderOperand (base : Nat) : Operand → String
  | Operand.cpIndex i => " #" ++ toString i
  | Operand.localSlot i => " " ++ toString i
  | Operand.branch off => " " ++ toString ((base : Int) + off)
  | Operand.immediate v => " " ++ toString v

def renderInstruction (i : Instruction) : String :=
  "      " ++ toString i.offset ++ ": " ++ i.mnemonic ++
    String.join (i.operands.map (renderOperand i.offset))

def renderCpEntry : CpInfo → String
  | CpInfo.utf8 s => "Utf8 " ++ s
  | CpInfo.intConst v => "Integer " ++ toString v
  | CpInfo.floatConst b => "Float bits " ++ hexString b
  | CpInfo.longConst v => "Long " ++ toString v
  | CpInfo.doubleConst b => "Double bits " ++ hexString b
  | CpInfo.classRef n => "Class #" ++ toString n
  | CpInfo.stringRef n => "String #" ++ toString n
  | CpInfo.fieldref c n => "Fieldref #" ++ toString c ++ ".#" ++ toString n
  | CpInfo.methodref c n => "Methodref #" ++ toString c ++ ".#" ++ toString n
  | CpInfo.interfaceMethodref c n =>
    "InterfaceMethodref #" ++ toString c ++ ".#" ++ toString n
  | CpInfo.nameAndType n d => "NameAndType #" ++ toString n ++ ":#" ++ toString d
  | CpInfo.methodHandle k i => "MethodHandle " ++ toString k ++ " #" ++ toString i
  | CpInfo.methodType d => "MethodType #" ++ toString d
  | CpInfo.dynamic b n => "Dynamic #" ++ toString b ++ ":#" ++ toString n
  | CpInfo.invokeDynamic b n => "InvokeDynamic #" ++ toString b ++ ":#" ++ toString n
  | CpInfo.moduleRef n => "Module #" ++ toString n
  | CpInfo.packageRef n => "Package #" ++ toString n

def renderPoolLines (i : Nat) : List PoolSlot → List String
  | [] => []
  | PoolSlot.entry e :: rest =>
    ("  #" ++ toString i ++ " = " ++ renderCpEntry e) :: renderPoolLines (i + 1) rest
  | PoolSlot.reservedWide :: rest => renderPoolLines (i + 1) rest

def renderSimplePayload (indent : String) (name : String) : SimplePayload → List String
  | SimplePayload.constantValue i => [indent ++ "ConstantValue: #" ++ toString i]
  | SimplePayload.exceptions is =>
    [indent ++ "Exceptions:" ++ String.join (is.map (fun i => " #" ++ toString i))]
  | SimplePayload.lineNumberTable es =>
    (indent ++ "LineNumberTable:") ::
      es.map (fun p => indent ++ "  line " ++ toString p.2 ++ ": " ++ toString p.1)
  | SimplePayload.sourceFile i => [indent ++ "SourceFile: #" ++ toString i]
  | SimplePayload.signature i => [indent ++ "Signature: #" ++ toString i]
  | SimplePayload.deprecatedMarker => [indent ++ "Deprecated: true"]
  | SimplePayload.raw bs => [indent ++ name ++ ": " ++ toString bs.length ++ " bytes"]
  | SimplePayload.decodeFailed e => [indent ++ "could not decode: " ++ errName e]

def renderCodeAttr (c : CodeAttr) : List String :=
  ("    Code: stack=" ++ toString c.maxStack ++ ", locals=" ++ toString c.maxLocals) ::
    c.code.map renderInstruction ++
    c.exceptionTable.map (fun e =>
      "      catch #" ++ toString e.catchType ++ " from " ++ toString e.startPc ++
        " to " ++ toString e.endPc ++ " at " ++ toString e.handlerPc) ++
    (c.attributes.map (fun a => renderSimplePayload ("      ") a.name a.payload)).flatten

def renderAttr (a : AttributeRec) : List String :=
  match a.payload with
  | TopPayload.code c => renderCodeAttr c
  | TopPayload.simple p => renderSimplePayload ("    ") a.name p

def renderMember (p : ConstantPool) (m : MemberInfo) : List String :=
  let nameStr := match utf8At p m.nameIndex with
    | Except.ok s => s
    | Except.error _ => "?"
  let descStr := match utf8At p m.descIndex with
    | Except.ok s => s
    | Except.error _ => "?"
  ("  " ++ nameStr ++ " " ++ descStr ++ " flags=" ++ hexString m.accessFlags) ::
    (m.attributes.map renderAttr).flatten

/-- The Renderer: a pure function from the decoded model to its textual
disassembly listing. -/
def renderClassFile (cf : ClassFile) : String :=
  let lines :=
    ("minor version: " ++ toString cf.minorVersion) ::
    ("major version: " ++ toString cf.majorVersion) ::
    ("flags: " ++ hexString cf.accessFlags) ::
    ("this_class: #" ++ toString cf.thisClass) ::
    ("super_class: #" ++ toString cf.superClass) ::
    ("interfaces:" ++ String.join (cf.interfaces.map (fun i => " #" ++ toString i))) ::
    "Constant pool:" :: renderPoolLines 1 cf.pool.slots ++
    "Fields:" :: (cf.fields.map (renderMember cf.pool)).flatten ++
    "Methods:" :: (cf.methods.map (renderMember cf.pool)).flatten ++
    (cf.attributes.map renderAttr).flatten
  String.intercalate newlineStr lines ++ newlineStr

/-- An output sink accumulating the text of successive render calls. -/
structure RenderSink where
  chunks : List String
deriving Repr, DecidableEq

/-- One render call directed at a sink: the sink receives the rendered
text and nothing else; the model is read, never modified. -/
def renderTo (cf : ClassFile) (sink : RenderSink) : RenderSink :=
  { chunks := sink.chunks ++ [renderClassFile cf] }

/-- `n` successive render calls on the same decoded model. -/
def renderTimes (cf : ClassFile) : Nat → RenderSink → RenderSink
  | 0, sink => sink
  | n + 1, sink => renderTimes cf n (renderTo cf sink)

/-! ## Concrete example inputs used by the witnesses -/

/-- A constant pool image: count 4, a Utf8 entry at index 1, a Long entry
at index 2 (its second slot, index 3, is reserved). -/
def cpExampleReader : ByteReader :=
  ⟨[0, 4, 1, 0, 1, 65, 5, 1, 2, 3, 4, 5, 6, 7, 8], 0⟩

def cpExamplePool : ConstantPool :=
  ⟨4, [PoolSlot.entry (CpInfo.utf8 ("A")),
       PoolSlot.entry (CpInfo.longConst 72623859790382856),
       PoolSlot.reservedWide]⟩

/-! # Theorems -/

/-! ## Newline-freedom of the Debug formatting -/

theorem hexDigit_ne_newline (n : Nat) : hexDigit n ≠ '\n' := by
  unfold hexDigit
  cases h : hexDigitChars.get? n with
  | none => simp [Option.getD]
  | some c =>
    have hc : c ∈ hexDigitChars := List.get?_mem h
    have hall : ∀ x ∈ hexDigitChars, x ≠ '\n' := by decide
    simpa [Option.getD] using hall c hc

theorem newline_not_mem_natToHexAux : ∀ fuel n, '\n' ∉ natToHexAux fuel n := by
  intro fuel
  induction fuel with
  | zero => intro n; simp [natToHexAux]
  | succ fuel ih =>
    intro n
    rw [natToHexAux]
    split
    · simp only [List.mem_singleton]
      exact fun h => hexDigit_ne_newline n h.symm
    · intro h
      rcases List.mem_append.mp h with h1 | h2
      · exact ih (n / 16) h1
      · exact hexDigit_ne_newline (n % 16) (List.mem_singleton.mp h2).symm

theorem newline_not_mem_escape (c : Char) : '\n' ∉ escapeDebugChar c := by
  unfold escapeDebugChar
  split_ifs with h1 h2 h3 h4 h5 h6 h7
  · decide
  · decide
  · decide
  · decide
  · decide
  · decide
  · intro hmem
    rcases List.mem_cons.mp hmem with e1 | hmem2
    · exact absurd e1 (by decide)
    rcases List.mem_cons.mp hmem2 with e2 | hmem3
    · exact absurd e2 (by decide)
    rcases List.mem_cons.mp hmem3 with e3 | hmem4
    · exact absurd e3 (by decide)
    rcases List.mem_append.mp hmem4 with hh | e4
    · exact newline_not_mem_natToHexAux _ _ hh
    · exact absurd (List.mem_singleton.mp e4) (by decide)
  · simp only [List.mem_singleton]
    exact Ne.symm h3

theorem newline_not_mem_debugString (s : String) : '\n' ∉ rustDebugString s := by
  unfold rustDebugString
  intro h
  rcases List.mem_cons.mp h with h1 | h2
  · exact absurd h1 (by decide)
  rcases List.mem_append.mp h2 with h3 | h4
  · rcases List.mem_flatten.mp h3 with ⟨l, hl, hmem⟩
    rcases List.mem_map.mp hl with ⟨c, _, rfl⟩
    exact newline_not_mem_escape c hmem
  · exact absurd (List.mem_singleton.mp h4) (by decide)

theorem newline_not_mem_sep (ls : List (List Char)) (h : ∀ l ∈ ls, '\n' ∉ l) :
    '\n' ∉ sepCommaSpace ls := by
  induction ls with
  | nil => simp [sepCommaSpace]
  | cons x rest ih =>
    cases rest with
    | nil => simpa [sepCommaSpace] using h x (by simp)
    | cons y rest2 =>
      intro hmem
      rw [sepCommaSpace] at hmem
      rcases List.mem_append.mp hmem with hx | hy
      · exact h x (by simp) hx
      rcases List.mem_cons.mp hy with e1 | hy2
      · exact absurd e1 (by decide)
      rcases List.mem_cons.mp hy2 with e2 | hy3
      · exact absurd e2 (by decide)
      · exact ih (fun l hl => h l (List.mem_cons_of_mem _ hl)) hy3

theorem newline_not_mem_debugVec (args : List String) : '\n' ∉ rustDebugVec args := by
  unfold rustDebugVec
  intro h
  rcases List.mem_cons.mp h with h1 | h2
  · exact absurd h1 (by decide)
  rcases List.mem_append.mp h2 with h3 | h4
  · refine newline_not_mem_sep _ ?_ h3
    intro l hl
    rcases List.mem_map.mp hl with ⟨s, _, rfl⟩
    exact newline_not_mem_debugString s
  · exact absurd (List.mem_singleton.mp h4) (by decide)

/-! ## Claims about the program in `src/main.rs` -/

/-- C1: for every invocation, the program's entire observable behaviour is
to collect the command-line arguments (program name first, then the
arguments in invocation order, already embodied in the `args` list) into a
vector of strings and print exactly one line — the Debug formatting of
that vector, which contains no newline — to standard output, with exit
status 0 and no change to any other part of the world (filesystem,
environment, clock, entropy), and no effect in the trace besides that one
print. -/
theorem c1_program_behaviour (args : List String) (s : Sys) :
    (runMainArgs args s).2 = 0 ∧
    (runMainArgs args s).1.stdoutLines = s.stdoutLines ++ [debugLine args] ∧
    debugLine args = String.mk (rustDebugVec args) ∧
    '\n' ∉ (debugLine args).data ∧
    (runMainArgs args s).1.trace = s.trace ++ [Effect.printLine (debugLine args)] ∧
    (runMainArgs args s).1.fs = s.fs ∧
    (runMainArgs args s).1.envVars = s.envVars ∧
    (runMainArgs args s).1.clock = s.clock ∧
    (runMainArgs args s).1.entropy = s.entropy := by
  refine ⟨rfl, rfl, rfl, ?_, rfl, rfl, rfl, rfl, rfl⟩
  show '\n' ∉ rustDebugVec args
  exact newline_not_mem_debugVec args

/-- C2: two-run noninterference in the filesystem — for any two worlds
(in particular, worlds with arbitrarily different filesystems) the lines
the program emits are identical; moreover the trace delta contains no
file-open effect and the filesystem is left untouched, so file contents
cannot influence output. -/
theorem c2_filesystem_noninterference (args : List String) (s1 s2 : Sys) :
    (runMainArgs args s1).1.stdoutLines.drop s1.stdoutLines.length =
      (runMainArgs args s2).1.stdoutLines.drop s2.stdoutLines.length ∧
    (∀ p, Effect.openFile p ∉ (runMainArgs args s1).1.trace.drop s1.trace.length) ∧
    (runMainArgs args s1).1.fs = s1.fs := by
  refine ⟨?_, ?_, rfl⟩
  · show (s1.stdoutLines ++ [debugLine args]).drop s1.stdoutLines.length =
      (s2.stdoutLines ++ [debugLine args]).drop s2.stdoutLines.length
    rw [List.drop_left, List.drop_left]
  · intro p
    show Effect.openFile p ∉ (s1.trace ++ [Effect.printLine (debugLine args)]).drop s1.trace.length
    rw [List.drop_left]
    simp

/-- C3: for every invocation with one or more file paths among the
arguments, the exit status is zero exactly when no supplied file failed to
parse. The program performs no parse effect at all, so the set of parse
failures is empty and the exit status is 0: the claim holds with its
non-zero direction vacuous. -/
theorem c3_exit_status (paths : List String) (s : Sys) (_hne : paths ≠ []) :
    (∀ p ok, Effect.parseFile p ok ∉ (runMainArgs paths s).1.trace.drop s.trace.length) ∧
    ((∃ p, Effect.parseFile p false ∈ (runMainArgs paths s).1.trace.drop s.trace.length) →
      (runMainArgs paths s).2 ≠ 0) ∧
    ((¬ ∃ p, Effect.parseFile p false ∈ (runMainArgs paths s).1.trace.drop s.trace.length) →
      (runMainArgs paths s).2 = 0) := by
  have htr : (runMainArgs paths s).1.trace.drop s.trace.length =
      [Effect.printLine (debugLine paths)] := by
    show (s.trace ++ [Effect.printLine (debugLine paths)]).drop s.trace.length = _
    rw [List.drop_left]
  refine ⟨?_, ?_, fun _ => rfl⟩
  · intro p ok
    rw [htr]
    simp
  · rintro ⟨p, hp⟩
    rw [htr] at hp
    simp at hp

theorem c3_exit_status_witness :
    (runMainArgs ["Main.class"] emptySys).2 = 0 := by
  have h := c3_exit_status ["Main.class"] emptySys (by simp)
  refine h.2.2 ?_
  rintro ⟨p, hp⟩
  simp [runMainArgs, emptySys] at hp

/-- C10: the program is deterministic and total — for every world the
emitted output is the same single line, a function solely of the argument
list (no dependence on filesystem, environment variables, clock or
entropy), and the exit status is always 0. -/
theorem c10_deterministic_output (args : List String) (s : Sys) :
    (runMainArgs args s).1.stdoutLines.drop s.stdoutLines.length =
      [String.mk (rustDebugVec args)] ∧
    (runMainArgs args s).2 = 0 := by
  constructor
  · show (s.stdoutLines ++ [debugLine args]).drop s.stdoutLines.length = _
    rw [List.drop_left]
    rfl
  · rfl

theorem collectArgsOs_eq_none_iff (l : List (List Nat)) :
    collectArgsOs l = none ↔ ∃ a ∈ l, decodeUtf8 a = none := by
  induction l with
  | nil => simp [collectArgsOs]
  | cons a rest ih =>
    cases hd : decodeUtf8 a with
    | none =>
      simp only [collectArgsOs, hd]
      constructor
      · intro _
        exact ⟨a, List.mem_cons_self a rest, hd⟩
      · intro _
        trivial
    | some cs =>
      cases hr : collectArgsOs rest with
      | none =>
        simp only [collectArgsOs, hd, hr]
        constructor
        · intro _
          obtain ⟨b, hb, hbd⟩ := ih.mp hr
          exact ⟨b, List.mem_cons_of_mem a hb, hbd⟩
        · intro _
          trivial
      | some tail =>
        simp only [collectArgsOs, hd, hr]
        constructor
        · intro h
          cases h
        · rintro ⟨b, hb, hbd⟩
          rcases List.mem_cons.mp hb with rfl | hb2
          · rw [hd] at hbd
            cases hbd
          · have : collectArgsOs rest = none := ih.mpr ⟨b, hb2, hbd⟩
            rw [hr] at this
            cases this

/-- C9: if any operating-system-supplied argument is not valid Unicode,
the program panics during argument collection (`env::args`); under the
precondition that every argument is valid Unicode it completes without
error — with exit status 0 — for every argument list, including the empty
one. -/
theorem c9_args_unicode_panic (osArgs : List (List Nat)) (s : Sys) :
    ((∃ a ∈ osArgs, decodeUtf8 a = none) →
      runMainOs osArgs s = RunOutcome.panicked s) ∧
    ((∀ a ∈ osArgs, decodeUtf8 a ≠ none) →
      ∃ s1, runMainOs osArgs s = RunOutcome.completed s1 0) := by
  constructor
  · intro hex
    have hn : collectArgsOs osArgs = none := (collectArgsOs_eq_none_iff _).mpr hex
    simp [runMainOs, hn]
  · intro hall
    cases hc : collectArgsOs osArgs with
    | none =>
      obtain ⟨a, ha, had⟩ := (collectArgsOs_eq_none_iff _).mp hc
      exact absurd had (hall a ha)
    | some args =>
      refine ⟨(runMainArgs args s).1, ?_⟩
      simp [runMainOs, hc, runMainArgs]

theorem c9_args_unicode_panic_witness :
    runMainOs [[255]] emptySys = RunOutcome.panicked emptySys ∧
    (∃ s1, runMainOs [] emptySys = RunOutcome.completed s1 0) := by
  constructor
  · exact (c9_args_unicode_panic [[255]] emptySys).1 ⟨[255], by simp, by decide⟩
  · exact (c9_args_unicode_panic [] emptySys).2 (by simp)

/-! ## Claims about the spec-modelled disassembler core -/

/-- C4: for every byte buffer, cursor position and Byte Reader read
operation, if fewer bytes remain than the operation requires the
operation returns `UnexpectedEndOfInput`; otherwise it succeeds, its value
is computed from exactly the in-bounds slice
`(r.buf.drop r.pos).take op.width` (so no memory past the buffer end is
ever accessed), and the cursor advances by exactly the width consumed. -/
theorem c4_byte_reader_bounds (op : ReadOp) (r : ByteReader) :
    (r.remaining < op.width → op.run r = Except.error Err.unexpectedEndOfInput) ∧
    (op.width ≤ r.remaining →
      op.run r = Except.ok (op.convert ((r.buf.drop r.pos).take op.width),
        ⟨r.buf, r.pos + op.width⟩)) := by
  cases op <;> constructor <;> intro h <;>
    simp only [ReadOp.run, ReadOp.width, ReadOp.convert, ByteReader.readU8,
      ByteReader.readU16, ByteReader.readU32, ByteReader.readU64, ByteReader.readI8,
      ByteReader.readI16, ByteReader.readI32, ByteReader.readBytes,
      ByteReader.readModifiedUtf8, readSlice, ByteReader.remaining] at h ⊢ <;>
    split <;> simp_all [Except.map] <;> omega

theorem c4_byte_reader_bounds_witness :
    ReadOp.run ReadOp.u16 ⟨[1, 2, 3], 0⟩ =
      Except.ok (ReadValue.uint 258, ⟨[1, 2, 3], 2⟩) ∧
    ReadOp.run ReadOp.u16 ⟨[1], 0⟩ = Except.error Err.unexpectedEndOfInput := by
  constructor
  · exact (c4_byte_reader_bounds ReadOp.u16 ⟨[1, 2, 3], 0⟩).2 (by decide)
  · exact (c4_byte_reader_bounds ReadOp.u16 ⟨[1], 0⟩).1 (by decide)

/-- C5: the Renderer is a pure, side-effect-free function of the decoded
`ClassFile` model and is idempotent — `n` render calls on the same model
append exactly `n` byte-identical copies of the rendered text to the sink,
regardless of the sink's prior contents, and touch nothing else. -/
theorem c5_renderer_idempotent (cf : ClassFile) (sink : RenderSink) (n : Nat) :
    (renderTimes cf n sink).chunks =
      sink.chunks ++ List.replicate n (renderClassFile cf) := by
  induction n generalizing sink with
  | zero => simp [renderTimes]
  | succ n ih =>
    rw [renderTimes, ih]
    simp [renderTo, List.replicate_succ]

theorem loadPoolEntries_length :
    ∀ fuel r count i slots r2,
      loadPoolEntries fuel r count i = Except.ok (slots, r2) →
      count ≤ i + slots.length := by
  intro fuel
  induction fuel with
  | zero =>
    intro r count i slots r2 h
    exact absurd h (by simp [loadPoolEntries])
  | succ fuel ih =>
    intro r count i slots r2 h
    rw [loadPoolEntries] at h
    by_cases hi : i < count
    · rw [if_pos hi] at h
      cases hd : decodeCpEntryT r with
      | error e => rw [hd] at h; cases h
      | ok t =>
        obtain ⟨e, wide, r1⟩ := t
        rw [hd] at h
        cases wide with
        | true =>
          simp only [if_pos] at h
          cases hrec : loadPoolEntries fuel r1 count (i + 2) with
          | error e2 => rw [hrec] at h; cases h
          | ok t2 =>
            obtain ⟨rest, rr⟩ := t2
            rw [hrec] at h
            simp only [Except.ok.injEq, Prod.mk.injEq] at h
            obtain ⟨hs, _⟩ := h
            subst hs
            have := ih r1 count (i + 2) rest rr hrec
            simp only [List.length_cons]
            omega
        | false =>
          simp only [Bool.false_eq_true, if_neg, ite_false] at h
          cases hrec : loadPoolEntries fuel r1 count (i + 1) with
          | error e2 => rw [hrec] at h; cases h
          | ok t2 =>
            obtain ⟨rest, rr⟩ := t2
            rw [hrec] at h
            simp only [Except.ok.injEq, Prod.mk.injEq] at h
            obtain ⟨hs, _⟩ := h
            subst hs
            have := ih r1 count (i + 1) rest rr hrec
            simp only [List.length_cons]
            omega
    · rw [if_neg hi] at h
      simp only [Except.ok.injEq, Prod.mk.injEq] at h
      obtain ⟨hs, _⟩ := h
      subst hs
      simp only [List.length_nil]
      omega

/-- C6: for every loaded constant pool, `resolve idx` fails with
`InvalidPoolIndex` exactly when `idx` is 0, is at or beyond the declared
count (in particular `resolve count`, one past the maximum valid index),
or points at the reserved second slot of a Long/Double entry; for every
other index it returns the entry stored at that index. -/
theorem c6_resolve_invalid_indices (r0 : ByteReader) (p : ConstantPool)
    (r2 : ByteReader) (hload : loadConstantPool r0 = Except.ok (p, r2)) (idx : Nat) :
    (resolve p idx = Except.error Err.invalidPoolIndex ↔
      (idx = 0 ∨ p.count ≤ idx ∨ p.slots.get? (idx - 1) = some PoolSlot.reservedWide)) ∧
    (idx ≠ 0 → idx < p.count → p.slots.get? (idx - 1) ≠ some PoolSlot.reservedWide →
      ∃ e, p.slots.get? (idx - 1) = some (PoolSlot.entry e) ∧
        resolve p idx = Except.ok e) := by
  have hlen : p.count ≤ 1 + p.slots.length := by
    unfold loadConstantPool at hload
    cases hu : ByteReader.readU16 r0 with
    | error e => rw [hu] at hload; cases hload
    | ok t =>
      obtain ⟨count, r1⟩ := t
      rw [hu] at hload
      dsimp only at hload
      cases hp : loadPoolEntries (count + 1) r1 count 1 with
      | error e => rw [hp] at hload; cases hload
      | ok t2 =>
        obtain ⟨slots, rr⟩ := t2
        rw [hp] at hload
        dsimp only at hload
        simp only [Except.ok.injEq, Prod.mk.injEq] at hload
        obtain ⟨hpe, _⟩ := hload
        subst hpe
        exact loadPoolEntries_length _ _ _ _ _ _ hp
  by_cases h0 : idx = 0 ∨ p.count ≤ idx
  · have hres : resolve p idx = Except.error Err.invalidPoolIndex := by
      simp only [resolve, if_pos h0]
    constructor
    · rw [hres]
      constructor
      · intro _
        tauto
      · intro _
        rfl
    · intro h1 h2 _
      rcases h0 with h0 | h0
      · exact absurd h0 h1
      · omega
  · push_neg at h0
    obtain ⟨hne, hlt⟩ := h0
    have hne0 : ¬(idx = 0 ∨ p.count ≤ idx) := by omega
    have hslot : p.slots.get? (idx - 1) ≠ none := by
      intro hn
      rw [List.get?_eq_none] at hn
      omega
    cases hs : p.slots.get? (idx - 1) with
    | none => exact absurd hs hslot
    | some slot =>
      cases slot with
      | entry e =>
        have hres : resolve p idx = Except.ok e := by
          simp only [resolve, if_neg hne0, hs]
        constructor
        · rw [hres]
          constructor
          · intro h
            cases h
          · intro h
            rcases h with h | h | h
            · exact absurd h hne
            · omega
            · simp at h
        · intro _ _ _
          exact ⟨e, rfl, hres⟩
      | reservedWide =>
        have hres : resolve p idx = Except.error Err.invalidPoolIndex := by
          simp only [resolve, if_neg hne0, hs]
        constructor
        · rw [hres]
          exact ⟨fun _ => Or.inr (Or.inr rfl), fun _ => rfl⟩
        · intro _ _ hne2
          exact absurd rfl hne2

theorem c6_resolve_invalid_indices_witness :
    resolve cpExamplePool 3 = Except.error Err.invalidPoolIndex ∧
    (∃ e, cpExamplePool.slots.get? 0 = some (PoolSlot.entry e) ∧
      resolve cpExamplePool 1 = Except.ok e) := by
  constructor
  · exact (c6_resolve_invalid_indices cpExampleReader cpExamplePool
      ⟨cpExampleReader.buf, 15⟩ rfl 3).1.mpr (Or.inr (Or.inr rfl))
  · exact (c6_resolve_invalid_indices cpExampleReader cpExamplePool
      ⟨cpExampleReader.buf, 15⟩ rfl 1).2 (by decide) (by decide) (by decide)

/-- C7: for every input buffer whose first four bytes are not the magic
constant 0xCAFEBABE, the Classfile Structure Loader rejects the buffer
with `NotAClassFile`: the magic check is the first step of the decode, and
the `Except` result carries no partial model — decoding of that file
aborts entirely. -/
theorem c7_magic_rejection (buf : List Nat) (h4 : 4 ≤ buf.length)
    (hm : beVal (buf.take 4) ≠ 0xCAFEBABE) :
    loadClassFile buf = Except.error Err.notAClassFile := by
  have hr : ByteReader.readU32 ⟨buf, 0⟩ =
      Except.ok (beVal (buf.take 4), ⟨buf, 4⟩) := by
    simp only [ByteReader.readU32, readSlice, ByteReader.remaining]
    rw [if_pos (by simpa using h4)]
    simp [Except.map]
  unfold loadClassFile
  rw [hr]
  dsimp only
  rw [if_neg hm]

theorem c7_magic_rejection_witness :
    loadClassFile [0, 0, 0, 0] = Except.error Err.notAClassFile :=
  c7_magic_rejection [0, 0, 0, 0] (by decide) (by decide)

theorem decodeInstrAt_shape (payload : List Nat) (pos : Nat) (i : Instruction)
    (extra : Nat) (h : decodeInstrAt payload pos = Except.ok (i, extra)) :
    i.offset = pos ∧ i.length = 1 + extra := by
  unfold decodeInstrAt at h
  cases h1 : readByteAt payload pos with
  | error e => rw [h1] at h; cases h
  | ok op =>
    rw [h1] at h
    dsimp only at h
    cases h2 : decodeInstrBody payload pos op with
    | error e => rw [h2] at h; cases h
    | ok t =>
      obtain ⟨mn, ops, ex⟩ := t
      rw [h2] at h
      dsimp only at h
      simp only [Except.ok.injEq, Prod.mk.injEq] at h
      obtain ⟨hi, hex⟩ := h
      subst hi hex
      exact ⟨rfl, rfl⟩

theorem walkInstrs_chain :
    ∀ fuel payload codeLen pos instrs endPos,
      walkInstrs fuel payload codeLen pos = Except.ok (instrs, endPos) →
      instrChain pos instrs endPos := by
  intro fuel
  induction fuel with
  | zero =>
    intro payload codeLen pos instrs endPos h
    exact absurd h (by simp [walkInstrs])
  | succ fuel ih =>
    intro payload codeLen pos instrs endPos h
    rw [walkInstrs] at h
    by_cases hp : pos < codeLen
    · rw [if_pos hp] at h
      cases h1 : decodeInstrAt payload pos with
      | error e => rw [h1] at h; cases h
      | ok t =>
        obtain ⟨i, extra⟩ := t
        rw [h1] at h
        dsimp only at h
        cases h2 : walkInstrs fuel payload codeLen (pos + 1 + extra) with
        | error e => rw [h2] at h; cases h
        | ok t2 =>
          obtain ⟨rest, e2⟩ := t2
          rw [h2] at h
          dsimp only at h
          simp only [Except.ok.injEq, Prod.mk.injEq] at h
          obtain ⟨hl, he⟩ := h
          subst hl he
          obtain ⟨ho, hlen⟩ := decodeInstrAt_shape payload pos i extra h1
          refine ⟨ho, ?_⟩
          have hrec := ih payload codeLen (pos + 1 + extra) rest e2 h2
          rw [hlen, ← Nat.add_assoc]
          exact hrec
    · rw [if_neg hp] at h
      simp only [Except.ok.injEq, Prod.mk.injEq] at h
      obtain ⟨hl, he⟩ := h
      subst hl he
      exact rfl

theorem instrChain_sum :
    ∀ (l : List Instruction) (pos endPos : Nat),
      instrChain pos l endPos → pos + (l.map Instruction.length).sum = endPos := by
  intro l
  induction l with
  | nil =>
    intro pos endPos h
    have h2 : endPos = pos := h
    simp [h2]
  | cons i rest ih =>
    intro pos endPos h
    have h2 : i.offset = pos ∧ instrChain (pos + i.length) rest endPos := h
    have := ih (pos + i.length) endPos h2.2
    simp only [List.map_cons, List.sum_cons]
    omega

theorem instrChain_adjacent :
    ∀ (l : List Instruction) (pos endPos k : Nat) (a b : Instruction),
      instrChain pos l endPos → l.get? k = some a → l.get? (k + 1) = some b →
      a.offset + a.length = b.offset := by
  intro l
  induction l with
  | nil =>
    intro pos endPos k a b _ ha _
    cases ha
  | cons i rest ih =>
    intro pos endPos k a b h ha hb
    have h2 : i.offset = pos ∧ instrChain (pos + i.length) rest endPos := h
    cases k with
    | zero =>
      have hai : a = i := by simpa using ha.symm
      cases rest with
      | nil => cases hb
      | cons j rest2 =>
        have hbj : b = j := by simpa using hb.symm
        have h3 : j.offset = pos + i.length ∧
            instrChain (pos + i.length + j.length) rest2 endPos := h2.2
        rw [hai, hbj, h2.1, h3.1]
    | succ k =>
      exact ih (pos + i.length) endPos k a b h2.2 (by simpa using ha) (by simpa using hb)

/-- C8: for every successfully disassembled Code attribute instruction
stream, the emitted instructions cover the code array contiguously and
without overlap — each instruction's offset plus its length is the next
instruction's offset, and the instruction lengths sum exactly to the
declared code length; and whenever the instruction walk ends anywhere
other than exactly the declared code length, decoding fails with
`AttributeLengthMismatch`. -/
theorem c8_instruction_coverage (payload : List Nat) (codeLen : Nat) :
    (∀ instrs, disassembleCode payload codeLen = Except.ok instrs →
      instrChain 0 instrs codeLen ∧
      (instrs.map Instruction.length).sum = codeLen ∧
      (∀ k a b, instrs.get? k = some a → instrs.get? (k + 1) = some b →
        a.offset + a.length = b.offset)) ∧
    (∀ instrs endPos,
      walkInstrs (codeLen + 1) payload codeLen 0 = Except.ok (instrs, endPos) →
      endPos ≠ codeLen →
      disassembleCode payload codeLen = Except.error Err.attributeLengthMismatch) := by
  constructor
  · intro instrs h
    unfold disassembleCode at h
    cases hw : walkInstrs (codeLen + 1) payload codeLen 0 with
    | error e => rw [hw] at h; cases h
    | ok t =>
      obtain ⟨is, endPos⟩ := t
      rw [hw] at h
      dsimp only at h
      by_cases he : endPos = codeLen
      · rw [if_pos he] at h
        simp only [Except.ok.injEq] at h
        subst h
        subst he
        have hchain := walkInstrs_chain _ _ _ _ _ _ hw
        refine ⟨hchain, ?_, ?_⟩
        · have hs2 := instrChain_sum _ _ _ hchain
          omega
        · intro k a b ha hb
          exact instrChain_adjacent _ _ _ k a b hchain ha hb
      · rw [if_neg he] at h
        cases h
  · intro instrs endPos hw hne
    unfold disassembleCode
    rw [hw]
    dsimp only
    rw [if_neg hne]

theorem c8_instruction_coverage_witness :
    instrChain 0
      [{ offset := 0, opcode := 177, mnemonic := "return", operands := [],
         length := 1 }] 1 ∧
    disassembleCode [16, 5] 1 = Except.error Err.attributeLengthMismatch := by
  constructor
  · exact ((c8_instruction_coverage [177] 1).1
      [{ offset := 0, opcode := 177, mnemonic := "return", operands := [],
         length := 1 }] rfl).1
  · exact (c8_instruction_coverage [16, 5] 1).2
      [{ offset := 0, opcode := 16, mnemonic := "bipush",
         operands := [Operand.immediate 5], length := 2 }] 2 rfl (by decide)
